import Mathlib

/-!
Verification of `cmd/minikube/cmd/kubectl.go`: the version-resolved kubectl
binary acquisition and dual-mode execution dispatcher.  The Go source is
embedded shallowly: pure fragments become Lean functions, effectful fragments
become functions producing an explicit event trace, and external collaborators
(the binary locator `node.CacheKubectlBinary`, the config loader, the child
process) become parameters or explicit outcome values.
-/

namespace MinikubeKubectl

/-- Modelled from the spec: `constants.DefaultKubernetesVersion`, the
compiled-in default Kubernetes version, defined outside this fragment.  The
concrete value is irrelevant to every claim; only its identity matters. -/
def DefaultKubernetesVersion : String := "v1.33.1"

/-- Modelled from the spec: `vmpath.GuestPersistentDir`, the persistent
directory inside a managed node, defined outside this fragment; its value in
the wider repository is "/var/lib/minikube". -/
def GuestPersistentDir : String := "/var/lib/minikube"

/-- The cobra library constant `cobra.ShellCompRequestCmd`: the hidden
subcommand name used for shell completion requests. -/
def ShellCompRequestCmd : String := "__complete"

/-- The cobra library constant `cobra.ShellCompDirectiveError` (1 shifted
left by 0).  Directives are carried as integers. -/
def ShellCompDirectiveError : Int := 1

/-! ## Go standard-library string helpers used by the source -/

/-- Go `strings.TrimPrefix(s, ":")`: drop a leading colon if present,
otherwise return the string unchanged (kubectl.go line 82). -/
def goTrimColon (s : String) : String :=
  match s.data with
  | c :: rest => if c = ':' then String.mk rest else s
  | [] => s

/-- Decimal digit value of a character, as Go `strconv` computes it for base
10: valid exactly for characters between ASCII 48 and 57. -/
def digitVal? (c : Char) : Option Nat :=
  if 48 ≤ c.toNat ∧ c.toNat ≤ 57 then some (c.toNat - 48) else none

/-- One accumulation step of the digit loop in Go `strconv.ParseUint`. -/
def parseDigitsStep (acc : Option Nat) (c : Char) : Option Nat :=
  match acc, digitVal? c with
  | some n, some d => some (n * 10 + d)
  | _, _ => none

/-- The digit-accumulation loop of Go `strconv.ParseUint`, with the
unbounded value tracked exactly (overflow is checked afterwards, which gives
the same error behaviour as Go's per-step cutoff checks). -/
def parseDigits (cs : List Char) : Option Nat :=
  cs.foldl parseDigitsStep (some 0)

/-- Go `strconv.Atoi` on a character list: optional sign, then a nonempty
run of decimal digits, with the platform int range check.  Go's `int` is
64-bit on 64-bit builds, so the accepted range is `[-2^63, 2^63 - 1]`;
out-of-range input yields an error (here `none`). -/
def goAtoiChars (cs : List Char) : Option Int :=
  match cs with
  | [] => none
  | c :: rest =>
    let digits := if c = '+' ∨ c = '-' then rest else c :: rest
    if digits.isEmpty then none
    else
      match parseDigits digits with
      | none => none
      | some v =>
        if c = '-' then
          if v ≤ 2 ^ 63 then some (-(v : Int)) else none
        else
          if v < 2 ^ 63 then some (v : Int) else none

/-- Go `strconv.Atoi`. -/
def goAtoi (s : String) : Option Int :=
  goAtoiChars s.data

/-- Go `strings.Split` with a single-character separator (the source only
splits on "\t" and "/"): split around every occurrence of the separator;
the empty string yields one empty field. -/
def splitOnChar (sep : Char) : List Char → List (List Char)
  | [] => [[]]
  | c :: rest =>
    let r := splitOnChar sep rest
    if c = sep then [] :: r
    else
      match r with
      | h :: t => (c :: h) :: t
      | [] => [[c]]

/-- Join character-list fields with a single-character separator (the
inverse direction of `splitOnChar`, as Go's `strings.Join`). -/
def joinChar (sep : Char) : List (List Char) → List Char
  | [] => []
  | [x] => x
  | x :: rest => x ++ sep :: joinChar sep rest

/-! ## Completion proxy (`kubectlCmd.ValidArgsFunction`, lines 60-88) -/

/-- Line 75: `strings.Split(scanner.Text(), "\t")[0]` — strip the completion
description after a tab. -/
def stripCompletionDesc (line : String) : String :=
  String.mk ((splitOnChar '\t' line.data).headD [])

/-- Line 82: `strconv.Atoi(strings.TrimPrefix(line, ":"))` — parse the final
completion line as a directive, stripping a leading colon if present. -/
def parseDirective (line : String) : Option Int :=
  goAtoi (goTrimColon line)

/-- Outcome of executing the embedded reference kubectl command: either
`Execute()` returned an error, or it succeeded and its captured output was
scanned into a list of lines.  (The `bufio.Scanner` reads an in-memory
buffer; its error path only fires for over-long tokens and is not part of
this line-level model.) -/
inductive ExecOutcome where
  | failure : ExecOutcome
  | output : List String → ExecOutcome

/-- The body of `kubectlCmd.ValidArgsFunction` (lines 60-88).  The first
component models the returned candidate slice, `none` standing for Go `nil`
(as returned on every error path) and `some` for a real (possibly empty)
slice; the second is the returned directive. -/
def validArgsFunction (res : ExecOutcome) : Option (List String) × Int :=
  match res with
  | .failure => (none, ShellCompDirectiveError)
  | .output lines =>
    let completions := lines.map stripCompletionDesc
    if completions.length = 0 then (none, ShellCompDirectiveError)
    else
      match parseDirective (completions.getLastD "") with
      | none => (none, ShellCompDirectiveError)
      | some directive => (some completions.dropLast, directive)

/-! ## Go `path.Clean` / `path.Join` (used by `kubectlPath`, line 164) -/

/-- The component-processing core of Go `path.Clean`: walk the
slash-separated components, dropping empty and "." components, resolving
".." against the accumulated stack (a rooted path discards ".." at the
root; an unrooted path keeps leading ".." components).  The accumulator
holds the output components in reverse. -/
def cleanComponents (rooted : Bool) : List (List Char) → List (List Char) → List (List Char)
  | [], acc => acc.reverse
  | part :: rest, acc =>
    if part = [] ∨ part = ['.'] then cleanComponents rooted rest acc
    else if part = ['.', '.'] then
      match acc with
      | [] =>
        if rooted then cleanComponents rooted rest []
        else cleanComponents rooted rest [['.', '.']]
      | top :: acc' =>
        if top = ['.', '.'] then cleanComponents rooted rest (['.', '.'] :: top :: acc')
        else cleanComponents rooted rest acc'
    else cleanComponents rooted rest (part :: acc)

/-- Go `path.Clean`, via its component-level semantics: collapse multiple
slashes, eliminate "." and resolved ".." components; the empty path cleans
to ".", a fully-eliminated rooted path to "/", a fully-eliminated unrooted
path to ".". -/
def pathClean (p : String) : String :=
  match p.data with
  | [] => "."
  | c :: _ =>
    let rooted := c = '/'
    let parts := cleanComponents rooted (splitOnChar '/' p.data) []
    if parts.isEmpty then (if rooted then "/" else ".")
    else if rooted then String.mk ('/' :: joinChar '/' parts)
    else String.mk (joinChar '/' parts)

/-- Go `path.Join`: skip leading empty elements, join the rest with
slashes, and clean the result; all-empty input yields the empty string. -/
def pathJoin (elems : List String) : String :=
  let elems' := elems.dropWhile (fun e => e.data.isEmpty)
  if elems'.isEmpty then ""
  else pathClean (String.mk (joinChar '/' (elems'.map String.data)))

/-! ## Data model (`config.ClusterConfig`, restricted to the fields read) -/

/-- The `KubernetesConfig` field group of a cluster config; only
`KubernetesVersion` is read by this fragment. -/
structure KubernetesConfig where
  KubernetesVersion : String

/-- The cluster configuration, restricted to the two fields this fragment
reads: the nested Kubernetes config and the binary mirror URL. -/
structure ClusterConfig where
  KubernetesConfig : KubernetesConfig
  BinaryMirror : String

/-- Lines 162-165: `kubectlPath` returns the guest-side path of the
version-matched kubectl binary,
`path.Join(vmpath.GuestPersistentDir, "binaries", version, "kubectl")`. -/
def kubectlPath (cfg : ClusterConfig) : String :=
  pathJoin [GuestPersistentDir, "binaries", cfg.KubernetesConfig.KubernetesVersion, "kubectl"]

/-- Lines 167-170: `kubeconfigPath` returns the fixed guest-side kubeconfig
path. -/
def kubeconfigPath : String := "/etc/kubernetes/admin.conf"

/-- Lines 105-109: the remote (`--ssh`) argument list — "sudo", the guest
path of the version-matched binary, the explicit kubeconfig flag pair, then
the original arguments. -/
def remoteArgs (cfg : ClusterConfig) (args : List String) : List String :=
  ["sudo", kubectlPath cfg, "--kubeconfig", kubeconfigPath] ++ args

/-! ## Local-mode dispatch (`kubectlCmd.Run`, lines 89-159) -/

/-- Lines 90-97: resolve the version and binary mirror from the result of
`config.Load` — a failed load silently falls back to the compiled-in
default version and an empty mirror. -/
def resolveVersionMirror (loadResult : Except String ClusterConfig) : String × String :=
  match loadResult with
  | .error _ => (DefaultKubernetesVersion, "")
  | .ok cc => (cc.KubernetesConfig.KubernetesVersion, cc.BinaryMirror)

/-- Lines 120-127: the architecture support scan over
`constants.SupportedArchitectures` (the list is a parameter here; its value
lives outside this fragment). -/
def archSupported (arch : String) (supportedArchitectures : List String) : Bool :=
  supportedArchitectures.any (fun a => arch == a)

/-- Lines 133-136: prepend the cluster-scoping flag pair unless the list
has at most one argument or starts with "--help" or the completion-request
token. -/
def injectClusterFlag (cname : String) (args : List String) : List String :=
  if args.length > 1 ∧ args.headD "" ≠ "--help" ∧ args.headD "" ≠ ShellCompRequestCmd then
    "--cluster" :: cname :: args
  else args

/-- The command value built by `exec.Command(path, args...)`: a binary path
plus its argument list. -/
structure Cmd where
  path : String
  args : List String

/-- Lines 172-184: `KubectlCommand` — substitute the default version for an
empty one, invoke the binary locator (`node.CacheKubectlBinary`, passed
here as the function `locate`), and wrap its path with the arguments. -/
def KubectlCommand (locate : String → String → Except String String)
    (version binaryURL : String) (args : List String) : Except String Cmd :=
  let version := if version = "" then DefaultKubernetesVersion else version
  match locate version binaryURL with
  | .error e => .error e
  | .ok p => .ok ⟨p, args⟩

/-- How the spawned child process terminated: a clean run (`c.Run()`
returned nil), an `*exec.ExitError` carrying an inspectable exit status, or
any other error (start failure / uninspectable termination). -/
inductive ChildResult where
  | success : ChildResult
  | exited : Int → ChildResult
  | startFailure : String → ChildResult

/-- Observable effects of one dispatcher run: a line printed to standard
error, a subprocess spawn, or a terminal `os.Exit` with a status code. -/
inductive Event where
  | stderrMsg : String → Event
  | spawn : String → List String → Event
  | exit : Int → Event
deriving DecidableEq

/-- Lines 148-158: the result translator — propagate an inspectable child
exit status via `os.Exit`, otherwise print a diagnostic naming the binary
path and the error and exit 1; a successful child produces no further
events (the process later exits 0 naturally). -/
def translateChildResult (binPath : String) : ChildResult → List Event
  | .success => []
  | .exited n => [.exit n]
  | .startFailure msg =>
    [.stderrMsg ("Error running " ++ binPath ++ ": " ++ msg ++ "\n"), .exit 1]

/-- Lines 133-158: the local-mode tail after the architecture check —
inject the cluster flags, resolve the binary through `KubectlCommand`
(aborting with a diagnostic and exit 1 on locator failure), spawn the
subprocess, and translate its result. -/
def binaryResolution (cname : String) (args : List String)
    (version binaryMirror : String)
    (locate : String → String → Except String String)
    (child : ChildResult) : List Event :=
  match KubectlCommand locate version binaryMirror (injectClusterFlag cname args) with
  | .error e => [.stderrMsg ("Error caching kubectl: " ++ e ++ "\n"), .exit 1]
  | .ok c => .spawn c.path c.args :: translateChildResult c.path child

/-- Lines 120-158: the local-mode dispatcher — fail with exit 1 on an
unsupported architecture, otherwise proceed to binary resolution and
subprocess execution. -/
def localRun (arch : String) (supportedArchitectures : List String)
    (cname : String) (args : List String) (version binaryMirror : String)
    (locate : String → String → Except String String)
    (child : ChildResult) : List Event :=
  if archSupported arch supportedArchitectures then
    binaryResolution cname args version binaryMirror locate child
  else
    [.stderrMsg ("Not supported on: " ++ arch ++ "\n"), .exit 1]

/-- Lines 90-97 plus 120-158: the local-mode run starting from the
`config.Load` result. -/
def localRunFromLoad (loadResult : Except String ClusterConfig)
    (arch : String) (supportedArchitectures : List String)
    (cname : String) (args : List String)
    (locate : String → String → Except String String)
    (child : ChildResult) : List Event :=
  let vm := resolveVersionMirror loadResult
  localRun arch supportedArchitectures cname args vm.1 vm.2 locate child

/-! ## Decimal rendering, for stating claims about directive strings -/

/-- Decimal digits of a natural number, most significant first. -/
def natDigits (n : Nat) : List Char :=
  if h : n < 10 then [Char.ofNat (48 + n)]
  else natDigits (n / 10) ++ [Char.ofNat (48 + n % 10)]
decreasing_by
  exact Nat.div_lt_self (by omega) (by omega)

/-- Standard decimal rendering of an integer (minus sign for negatives,
then the digits of the absolute value). -/
def intDecStr (n : Int) : String :=
  if n < 0 then String.mk ('-' :: natDigits n.natAbs)
  else String.mk (natDigits n.natAbs)

/-! ## Helper lemmas -/

theorem archSupported_iff (arch : String) (sup : List String) :
    archSupported arch sup = true ↔ arch ∈ sup := by
  simp only [archSupported, List.any_eq_true, beq_iff_eq]
  constructor
  · rintro ⟨x, hx, rfl⟩; exact hx
  · intro h; exact ⟨arch, h, rfl⟩

theorem getLastD_map (f : String → String) (l : List String) (d : String) :
    (l.map f).getLastD (f d) = f (l.getLastD d) := by
  induction l generalizing d with
  | nil => rfl
  | cons a t ih => simp only [List.map_cons, List.getLastD_cons]; exact ih a

theorem stripCompletionDesc_empty : stripCompletionDesc "" = "" := by decide

theorem getLastD_strip (lines : List String) :
    (lines.map stripCompletionDesc).getLastD "" = stripCompletionDesc (lines.getLastD "") := by
  have h := getLastD_map stripCompletionDesc lines ""
  rwa [stripCompletionDesc_empty] at h

/-! ## Claim theorems -/

/-- C1: in local mode, an argument list of length at most 1, or one whose
first token is the help flag "--help" or the completion-request token, never
receives the cluster-scoping flag pair; every other list of length greater
than 1 receives exactly the pair ["--cluster", cname] prepended once,
immediately before the original arguments, which stay unchanged and in
order. -/
theorem c1_cluster_flag_injection (cname : String) (args : List String) :
    ((args.length ≤ 1 ∨ args.head? = some "--help" ∨ args.head? = some ShellCompRequestCmd) →
      injectClusterFlag cname args = args)
    ∧ (args.length > 1 → args.head? ≠ some "--help" → args.head? ≠ some ShellCompRequestCmd →
      injectClusterFlag cname args = "--cluster" :: cname :: args) := by
  constructor
  · intro h
    unfold injectClusterFlag
    rw [if_neg]
    rintro ⟨h1, h2, h3⟩
    rcases h with h | h | h
    · omega
    · cases args with
      | nil => simp at h1
      | cons a t => simp_all
    · cases args with
      | nil => simp at h1
      | cons a t => simp_all
  · intro h1 h2 h3
    unfold injectClusterFlag
    rw [if_pos]
    refine ⟨h1, ?_, ?_⟩
    · cases args with
      | nil => simp at h1
      | cons a t => simpa using h2
    · cases args with
      | nil => simp at h1
      | cons a t => simpa using h3

/-- C1 witness: concrete instances of both branches. -/
theorem c1_cluster_flag_injection_witness :
    injectClusterFlag "minikube" ["version"] = ["version"]
    ∧ injectClusterFlag "minikube" ["get", "pods"] = ["--cluster", "minikube", "get", "pods"] :=
  ⟨(c1_cluster_flag_injection "minikube" ["version"]).1 (Or.inl (by decide)),
   (c1_cluster_flag_injection "minikube" ["get", "pods"]).2 (by decide) (by decide) (by decide)⟩

/-- C2: in remote (--ssh) mode the argument list is exactly "sudo", the
guest path of the version-matched binary, the kubeconfig flag pair with the
fixed path "/etc/kubernetes/admin.conf", then the original arguments
verbatim; in particular for version v1.20.0 and original arguments
[get, pods] it is the concrete six-element list. -/
theorem c2_remote_args :
    (∀ (cfg : ClusterConfig) (args : List String),
      remoteArgs cfg args =
        "sudo" :: kubectlPath cfg :: "--kubeconfig" :: "/etc/kubernetes/admin.conf" :: args)
    ∧ remoteArgs ⟨⟨"v1.20.0"⟩, ""⟩ ["get", "pods"] =
        ["sudo", "/var/lib/minikube/binaries/v1.20.0/kubectl", "--kubeconfig",
          "/etc/kubernetes/admin.conf", "get", "pods"] :=
  ⟨fun _ _ => rfl, by decide⟩

/-- C3: the result translator propagates an inspectable child exit status n
as the parent's exit status, and turns an uninspectable termination into a
stderr diagnostic naming the binary path and the underlying error followed
by exit status 1. -/
theorem c3_exit_status_translation :
    (∀ (binPath : String) (n : Int),
      translateChildResult binPath (.exited n) = [.exit n])
    ∧ (∀ (binPath msg : String),
      translateChildResult binPath (.startFailure msg) =
        [.stderrMsg ("Error running " ++ binPath ++ ": " ++ msg ++ "\n"), .exit 1]) :=
  ⟨fun _ _ => rfl, fun _ _ => rfl⟩

/-- C6: a failed configuration load silently resolves to the compiled-in
default version and an empty mirror, a successful load resolves to the
config's version and mirror, and the whole local run after a failed load
behaves exactly as after loading a config carrying those defaults. -/
theorem c6_config_load_fallback :
    (∀ e, resolveVersionMirror (.error e) = (DefaultKubernetesVersion, ""))
    ∧ (∀ cc, resolveVersionMirror (.ok cc) =
        (cc.KubernetesConfig.KubernetesVersion, cc.BinaryMirror))
    ∧ (∀ (e arch : String) (sup : List String) (cname : String) (args : List String)
        (locate : String → String → Except String String) (child : ChildResult),
        localRunFromLoad (.error e) arch sup cname args locate child =
          localRunFromLoad (.ok ⟨⟨DefaultKubernetesVersion⟩, ""⟩) arch sup cname args locate child) :=
  ⟨fun _ => rfl, fun _ => rfl, fun _ _ _ _ _ _ _ => rfl⟩

/-- C7: calling KubectlCommand with an empty version behaves exactly as
calling it with the compiled-in default version, and the result is the
locator's answer for the default version with the arguments passed through
verbatim. -/
theorem c7_empty_version_default (locate : String → String → Except String String)
    (mirror : String) (args : List String) :
    KubectlCommand locate "" mirror args =
      KubectlCommand locate DefaultKubernetesVersion mirror args
    ∧ KubectlCommand locate "" mirror args =
        (locate DefaultKubernetesVersion mirror).map (fun p => ⟨p, args⟩) := by
  constructor
  · simp [KubectlCommand]
  · cases h : locate DefaultKubernetesVersion mirror <;> simp [KubectlCommand, h, Except.map]

/-- C5: a supported detected architecture always proceeds to binary
resolution, and an unsupported one produces exactly a stderr diagnostic
followed by exit status 1 — independent of the locator and the child, and
with no subprocess spawned. -/
theorem c5_architecture_gate (arch : String) (supportedArchitectures : List String)
    (cname : String) (args : List String) (version binaryMirror : String)
    (locate : String → String → Except String String) (child : ChildResult) :
    (arch ∈ supportedArchitectures →
      localRun arch supportedArchitectures cname args version binaryMirror locate child =
        binaryResolution cname args version binaryMirror locate child)
    ∧ (arch ∉ supportedArchitectures →
      localRun arch supportedArchitectures cname args version binaryMirror locate child =
        [.stderrMsg ("Not supported on: " ++ arch ++ "\n"), .exit 1]
      ∧ ∀ (p : String) (a : List String),
          Event.spawn p a ∉
            localRun arch supportedArchitectures cname args version binaryMirror locate child) := by
  constructor
  · intro h
    unfold localRun
    rw [if_pos ((archSupported_iff arch supportedArchitectures).mpr h)]
  · intro h
    have hns : ¬ archSupported arch supportedArchitectures = true :=
      fun hc => h ((archSupported_iff arch supportedArchitectures).mp hc)
    have heq : localRun arch supportedArchitectures cname args version binaryMirror locate child =
        [.stderrMsg ("Not supported on: " ++ arch ++ "\n"), .exit 1] := by
      unfold localRun
      rw [if_neg hns]
    refine ⟨heq, fun p a => ?_⟩
    rw [heq]
    simp

/-- C5 witness: a supported and an unsupported architecture, concretely. -/
theorem c5_architecture_gate_witness :
    localRun "amd64" ["amd64", "arm64"] "minikube" ["get", "pods"] "v1.20.0" ""
        (fun _ _ => .ok "/usr/local/bin/kubectl") .success =
      binaryResolution "minikube" ["get", "pods"] "v1.20.0" ""
        (fun _ _ => .ok "/usr/local/bin/kubectl") .success
    ∧ localRun "mips" ["amd64", "arm64"] "minikube" ["get", "pods"] "v1.20.0" ""
        (fun _ _ => .ok "/usr/local/bin/kubectl") .success =
      [.stderrMsg "Not supported on: mips\n", .exit 1] :=
  ⟨(c5_architecture_gate "amd64" ["amd64", "arm64"] "minikube" ["get", "pods"] "v1.20.0" ""
      (fun _ _ => .ok "/usr/local/bin/kubectl") .success).1 (by decide),
   ((c5_architecture_gate "mips" ["amd64", "arm64"] "minikube" ["get", "pods"] "v1.20.0" ""
      (fun _ _ => .ok "/usr/local/bin/kubectl") .success).2 (by decide)).1⟩

/-- C8: in local mode, a locator failure makes the dispatcher print a
diagnostic naming the underlying error and exit with status 1, and no
subprocess is spawned. -/
theorem c8_locator_failure (arch : String) (sup : List String) (cname : String)
    (args : List String) (version mirror : String)
    (locate : String → String → Except String String) (child : ChildResult) (e : String)
    (hsup : archSupported arch sup = true)
    (hloc : KubectlCommand locate version mirror (injectClusterFlag cname args) = .error e) :
    localRun arch sup cname args version mirror locate child =
      [.stderrMsg ("Error caching kubectl: " ++ e ++ "\n"), .exit 1]
    ∧ ∀ (p : String) (a : List String),
        Event.spawn p a ∉ localRun arch sup cname args version mirror locate child := by
  have heq : localRun arch sup cname args version mirror locate child =
      [.stderrMsg ("Error caching kubectl: " ++ e ++ "\n"), .exit 1] := by
    unfold localRun binaryResolution
    rw [if_pos hsup, hloc]
  refine ⟨heq, fun p a => ?_⟩
  rw [heq]
  simp

/-- C8 witness: a concrete run with a failing locator. -/
theorem c8_locator_failure_witness :
    localRun "amd64" ["amd64"] "minikube" ["get", "pods"] "v1.20.0" ""
        (fun _ _ => .error "no network") .success =
      [.stderrMsg "Error caching kubectl: no network\n", .exit 1] :=
  (c8_locator_failure "amd64" ["amd64"] "minikube" ["get", "pods"] "v1.20.0" ""
      (fun _ _ => .error "no network") .success "no network" (by decide) rfl).1

/-- C4: the completion proxy yields no candidates (Go nil) plus the error
directive when the embedded command fails, when the output has zero lines,
or when the final line (stripped of its description) does not parse as a
directive; otherwise it yields all output lines except the last, each
stripped of a trailing tab-separated description, in order, plus the parsed
directive. -/
theorem c4_completion_protocol :
    (validArgsFunction .failure = (none, ShellCompDirectiveError))
    ∧ (validArgsFunction (.output []) = (none, ShellCompDirectiveError))
    ∧ (∀ lines : List String, lines ≠ [] →
        parseDirective (stripCompletionDesc (lines.getLastD "")) = none →
        validArgsFunction (.output lines) = (none, ShellCompDirectiveError))
    ∧ (∀ (lines : List String) (n : Int),
        parseDirective (stripCompletionDesc (lines.getLastD "")) = some n →
        validArgsFunction (.output lines) =
          (some (lines.dropLast.map stripCompletionDesc), n)) := by
  refine ⟨rfl, rfl, ?_, ?_⟩
  · intro lines hne hparse
    have hlen : ¬ (lines.map stripCompletionDesc).length = 0 := by
      simp [hne]
    simp only [validArgsFunction]
    rw [if_neg hlen, getLastD_strip, hparse]
  · intro lines n hparse
    cases lines with
    | nil =>
      have hnone : parseDirective (stripCompletionDesc (([] : List String).getLastD "")) = none := by
        decide
      rw [hnone] at hparse
      exact absurd hparse (by simp)
    | cons a t =>
      have hlen : ¬ ((a :: t).map stripCompletionDesc).length = 0 := by simp
      simp only [validArgsFunction]
      rw [if_neg hlen, getLastD_strip, hparse, ← List.map_dropLast]

/-- C4 witness: a successful parse and a directive-less final line. -/
theorem c4_completion_protocol_witness :
    (parseDirective (stripCompletionDesc (["pod\tRunning", ":4"].getLastD "")) = some 4
      ∧ validArgsFunction (.output ["pod\tRunning", ":4"]) = (some ["pod"], 4))
    ∧ (["abc"] ≠ ([] : List String)
      ∧ parseDirective (stripCompletionDesc (["abc"].getLastD "")) = none
      ∧ validArgsFunction (.output ["abc"]) = (none, ShellCompDirectiveError)) :=
  ⟨⟨by decide, c4_completion_protocol.2.2.2 ["pod\tRunning", ":4"] 4 (by decide)⟩,
   ⟨by decide, by decide, c4_completion_protocol.2.2.1 ["abc"] (by decide) (by decide)⟩⟩

/-- C9: a successful embedded run whose single output line parses as a
directive yields an empty (but non-nil) candidate list together with that
directive — the zero-candidate check counts lines before the directive line
is removed, so a directive-only response is not an empty response. -/
theorem c9_directive_only_response (l : String) (n : Int)
    (h : parseDirective (stripCompletionDesc l) = some n) :
    validArgsFunction (.output [l]) = (some [], n) := by
  simp only [validArgsFunction, List.map_cons, List.map_nil]
  rw [if_neg (by simp)]
  rw [show ([stripCompletionDesc l].getLastD "") = stripCompletionDesc l from rfl, h]
  rfl

/-- C9 witness: the single line ":4". -/
theorem c9_directive_only_response_witness :
    parseDirective (stripCompletionDesc ":4") = some 4
    ∧ validArgsFunction (.output [":4"]) = (some [], 4) :=
  ⟨by decide, c9_directive_only_response ":4" 4 (by decide)⟩

/-! ## Directive parsing of rendered integers (for C10) -/

theorem natDigits_lt (m : Nat) (h : m < 10) : natDigits m = [Char.ofNat (48 + m)] := by
  unfold natDigits
  rw [dif_pos h]

theorem natDigits_ge (m : Nat) (h : ¬ m < 10) :
    natDigits m = natDigits (m / 10) ++ [Char.ofNat (48 + m % 10)] := by
  conv_lhs => rw [natDigits]
  rw [dif_neg h]

theorem digitVal_ofNat (d : Nat) (hd : d < 10) :
    digitVal? (Char.ofNat (48 + d)) = some d := by
  interval_cases d <;> decide

theorem parseDigits_append (cs : List Char) (c : Char) :
    parseDigits (cs ++ [c]) = parseDigitsStep (parseDigits cs) c := by
  simp [parseDigits, List.foldl_append]

theorem parseDigits_natDigits (m : Nat) : parseDigits (natDigits m) = some m := by
  induction m using Nat.strong_induction_on with
  | _ m ih =>
    by_cases h : m < 10
    · rw [natDigits_lt m h]
      show parseDigitsStep (some 0) (Char.ofNat (48 + m)) = some m
      simp [parseDigitsStep, digitVal_ofNat m h]
    · rw [natDigits_ge m h, parseDigits_append,
        ih (m / 10) (Nat.div_lt_self (by omega) (by omega))]
      have h10 : m % 10 < 10 := Nat.mod_lt _ (by omega)
      simp only [parseDigitsStep, digitVal_ofNat _ h10, Option.some.injEq]
      omega

theorem natDigits_head_digit (m : Nat) :
    ∃ c rest, natDigits m = c :: rest ∧ 48 ≤ c.toNat ∧ c.toNat ≤ 57 := by
  induction m using Nat.strong_induction_on with
  | _ m ih =>
    by_cases h : m < 10
    · refine ⟨Char.ofNat (48 + m), [], natDigits_lt m h, ?_, ?_⟩
      · interval_cases m <;> decide
      · interval_cases m <;> decide
    · obtain ⟨c, rest, hEq, h1, h2⟩ := ih (m / 10) (Nat.div_lt_self (by omega) (by omega))
      exact ⟨c, rest ++ [Char.ofNat (48 + m % 10)],
        by rw [natDigits_ge m h, hEq]; rfl, h1, h2⟩

theorem goAtoiChars_natDigits (m : Nat) (hm : m < 2 ^ 63) :
    goAtoiChars (natDigits m) = some (m : Int) := by
  obtain ⟨c, rest, hEq, hc1, hc2⟩ := natDigits_head_digit m
  have hpd : parseDigits (c :: rest) = some m := by
    rw [← hEq]; exact parseDigits_natDigits m
  have hp : ¬ c = '+' := by
    intro hcp; rw [hcp] at hc1; exact absurd hc1 (by decide)
  have hmn : ¬ c = '-' := by
    intro hcm; rw [hcm] at hc1; exact absurd hc1 (by decide)
  rw [hEq]
  simp [goAtoiChars, hp, hmn, hpd, hm]
  omega

theorem goAtoiChars_negDigits (m : Nat) (hm : m ≤ 2 ^ 63) :
    goAtoiChars ('-' :: natDigits m) = some (-(m : Int)) := by
  obtain ⟨c, rest, hEq, hc1, hc2⟩ := natDigits_head_digit m
  have hpd : parseDigits (c :: rest) = some m := by
    rw [← hEq]; exact parseDigits_natDigits m
  rw [hEq]
  simp +decide [goAtoiChars, hpd, hm]
  omega

theorem goAtoi_intDecStr (n : Int) (h1 : -(2 ^ 63) ≤ n) (h2 : n < 2 ^ 63) :
    goAtoi (intDecStr n) = some n := by
  by_cases hn : n < 0
  · have hs : intDecStr n = String.mk ('-' :: natDigits n.natAbs) := by
      unfold intDecStr; rw [if_pos hn]
    rw [hs]
    show goAtoiChars ('-' :: natDigits n.natAbs) = some n
    rw [goAtoiChars_negDigits n.natAbs (by omega)]
    congr 1
    omega
  · have hs : intDecStr n = String.mk (natDigits n.natAbs) := by
      unfold intDecStr; rw [if_neg hn]
    rw [hs]
    show goAtoiChars (natDigits n.natAbs) = some n
    rw [goAtoiChars_natDigits n.natAbs (by omega)]
    congr 1
    omega

theorem goTrimColon_head_ne (s : String) (c : Char) (rest : List Char)
    (hdata : s.data = c :: rest) (hc : ¬ c = ':') : goTrimColon s = s := by
  simp [goTrimColon, hdata, hc]

theorem goTrimColon_intDecStr (n : Int) : goTrimColon (intDecStr n) = intDecStr n := by
  by_cases hn : n < 0
  · refine goTrimColon_head_ne _ '-' (natDigits n.natAbs) ?_ (by decide)
    simp [intDecStr, hn]
  · obtain ⟨c, rest, hEq, hc1, hc2⟩ := natDigits_head_digit n.natAbs
    refine goTrimColon_head_ne _ c rest ?_ ?_
    · simp [intDecStr, hn, hEq]
    · intro hcc; rw [hcc] at hc2; exact absurd hc2 (by decide)

theorem goTrimColon_colon_append (t : String) : goTrimColon (":" ++ t) = t := by
  have hdata : (":" ++ t).data = ':' :: t.data := by
    rw [String.data_append]; rfl
  simp [goTrimColon, hdata]

/-- C10 counterexample: the claim fails at n equal to 2 to the 63rd power
(decimal 9223372036854775808): Go's strconv.Atoi is bounded by the platform
int range, so neither the colon form nor the bare form of that integer
parses as a directive — the proxy reports a completion error instead. -/
theorem c10_colon_stripping_counterexample :
    parseDirective ":9223372036854775808" = none
    ∧ parseDirective "9223372036854775808" = none
    ∧ validArgsFunction (.output [":9223372036854775808"]) = (none, ShellCompDirectiveError) := by
  refine ⟨by decide, by decide, by decide⟩

/-- C10 (amended): for every integer n representable in a 64-bit Go int,
that is with n at least -(2 to the 63rd) and below 2 to the 63rd, both the
colon-prefixed form ":n" and the bare decimal form "n" as the final output
line parse as directive n, because the colon prefix is stripped only if
present before integer parsing; integers outside that range fail to
parse. -/
theorem c10_colon_stripping (n : Int) (h1 : -(2 ^ 63) ≤ n) (h2 : n < 2 ^ 63) :
    parseDirective (":" ++ intDecStr n) = some n
    ∧ parseDirective (intDecStr n) = some n := by
  constructor
  · show goAtoi (goTrimColon (":" ++ intDecStr n)) = some n
    rw [goTrimColon_colon_append]
    exact goAtoi_intDecStr n h1 h2
  · show goAtoi (goTrimColon (intDecStr n)) = some n
    rw [goTrimColon_intDecStr]
    exact goAtoi_intDecStr n h1 h2

/-- C10 witness: both forms at the in-range directive 4. -/
theorem c10_colon_stripping_witness :
    (-(2 ^ 63) ≤ (4 : Int) ∧ (4 : Int) < 2 ^ 63)
    ∧ parseDirective (":" ++ intDecStr 4) = some 4
    ∧ parseDirective (intDecStr 4) = some 4 :=
  ⟨⟨by decide, by decide⟩, c10_colon_stripping 4 (by decide) (by decide)⟩

end MinikubeKubectl
